import Mathlib

/-!
Shallow embedding of the LLCP (Link Layer Control Procedure) engine from
`subsys/bluetooth/controller/ll_sw/ull_llcp.c`, together with theorems about
the claims of its specification.

Modelling conventions:
* Machine integers (`u8_t`, `u16_t`, `int`) are `Nat`; truncation into a
  narrower field is an explicit `% 256` / `% 65536` at the store.
* The three process-wide memory pools are modelled by their free-block
  counts; `mem_acquire` decrements, `mem_release` increments.  An extra
  meter `ctxAcquired` counts acquires minus releases of the procedure
  context pool, for the pool-accounting claims.
* A fallible C path (an `LL_ASSERT` that can fire, or a NULL dereference)
  is `Option`: `none` is the abort.
* `sys_slist_t` queues are `List proc_ctx`; `sys_slist_append` appends,
  `sys_slist_get` drops the head (and on an empty list is a no-op, as in
  the C helper which returns NULL).
* The transmit queue towards the LLL and the RX queue towards the host are
  `List pdu_data`; enqueueing appends, and the engine never reads them back.
* The per-procedure FSMs mutate their `struct proc_ctx` through a pointer
  that is always the head of the lane that owns the context (every call
  site reaches the context via `lr_peek`/`rr_peek`).  Writes through that
  pointer are embedded as updates of the owning lane's queue head.  In the
  two completion paths the C source performs `ctx->state = ..._IDLE` *after*
  `lr_complete`/`rr_complete`, which may have dequeued the node; a write to
  a dequeued node is unobservable (the node is never reused: the source
  never calls `proc_ctx_release`), and the lane FSM never reads
  `ctx->state`, so the embedding performs the state write immediately
  before the completion signal, which is observably identical.
-/

namespace UllLlcp

/-! ## Enumerations (values as in the C source) -/

/-- LLCP Local Procedure Common FSM states. -/
def LP_COMMON_STATE_IDLE : Nat := 0
def LP_COMMON_STATE_WAIT_TX : Nat := 1
def LP_COMMON_STATE_WAIT_RX : Nat := 2
def LP_COMMON_STATE_WAIT_NTF : Nat := 3

/-- LLCP Local Procedure Common FSM events. -/
def LP_COMMON_EVT_RUN : Nat := 0
def LP_COMMON_EVT_RESPONSE : Nat := 1
def LP_COMMON_EVT_REJECT : Nat := 2
def LP_COMMON_EVT_UNKNOWN : Nat := 3
def LP_COMMON_EVT_COLLISION : Nat := 4

/-- LLCP Remote Procedure Common FSM states (note the order differs from LP). -/
def RP_COMMON_STATE_IDLE : Nat := 0
def RP_COMMON_STATE_WAIT_RX : Nat := 1
def RP_COMMON_STATE_WAIT_TX : Nat := 2
def RP_COMMON_STATE_WAIT_NTF : Nat := 3

/-- LLCP Remote Procedure Common FSM events. -/
def RP_COMMON_EVT_RUN : Nat := 0
def RP_COMMON_EVT_REQUEST : Nat := 1

/-- LLCP Procedure kinds. -/
def PROC_UNKNOWN : Nat := 0
def PROC_VERSION_EXCHANGE : Nat := 1

/-- LLCP Local Request FSM states. -/
def LR_STATE_IDLE : Nat := 0
def LR_STATE_ACTIVE : Nat := 1
def LR_STATE_DISCONNECT : Nat := 2

/-- LLCP Local Request FSM events. -/
def LR_EVT_RUN : Nat := 0
def LR_EVT_COMPLETE : Nat := 1
def LR_EVT_CONNECT : Nat := 2
def LR_EVT_DISCONNECT : Nat := 3

/-- LLCP Remote Request FSM states. -/
def RR_STATE_IDLE : Nat := 0
def RR_STATE_ACTIVE : Nat := 1
def RR_STATE_DISCONNECT : Nat := 2

/-- LLCP Remote Request FSM events. -/
def RR_EVT_RUN : Nat := 0
def RR_EVT_COMPLETE : Nat := 1
def RR_EVT_CONNECT : Nat := 2
def RR_EVT_DISCONNECT : Nat := 3

/-- Control-PDU opcode of LL_VERSION_IND. -/
def PDU_DATA_LLCTRL_TYPE_VERSION_IND : Nat := 0x0C

/-- LLID value of a control PDU. -/
def PDU_DATA_LLID_CTRL : Nat := 3

/-- `offsetof(struct pdu_data_llctrl, version_ind) + sizeof(struct
pdu_data_llctrl_version_ind)` = 1 + 5. -/
def VERSION_IND_PDU_LEN : Nat := 6

/-- HCI status codes used by the engine. -/
def BT_HCI_ERR_SUCCESS : Nat := 0x00
def BT_HCI_ERR_CMD_DISALLOWED : Nat := 0x0C

/-! ## Data model -/

/-- Compile-time configuration: the identity values written into an
outgoing VERSION_IND (`LL_VERSION_NUMBER`, `ll_settings_company_id()`,
`ll_settings_subversion_number()`) and the three pool capacities. -/
structure Settings where
  ll_version_number : Nat
  company_id : Nat
  subversion_number : Nat
  PROC_CTX_BUF_NUM : Nat
  TX_CTRL_BUF_NUM : Nat
  NTF_BUF_NUM : Nat
deriving DecidableEq

/-- `struct proc_ctx` (the `sys_snode_t` link is implicit in the queue
lists).  `create_procedure` does not write the `opcode` field: the pool
blocks live in zero-initialised static storage and `proc_ctx_release` is
never invoked, so the field of a freshly acquired block reads 0. -/
structure proc_ctx where
  proc : Nat
  state : Nat
  opcode : Nat
  collision : Nat
  pause : Nat
deriving DecidableEq

/-- An LL control PDU (`struct pdu_data` restricted to the members the
engine touches).  The two `u16` payload members of
`struct pdu_data_llctrl_version_ind` are kept as their two wire octets,
low octet first (the wire order is little-endian). -/
structure pdu_data where
  ll_id : Nat
  len : Nat
  opcode : Nat
  version_number : Nat
  company_id_lo : Nat
  company_id_hi : Nat
  sub_version_lo : Nat
  sub_version_hi : Nat
deriving DecidableEq

/-- The cached peer record `conn->vex.cached`. -/
structure vex_cached where
  version_number : Nat
  company_id : Nat
  sub_version_number : Nat
deriving DecidableEq

/-- `conn->vex`: per-connection version-exchange state. -/
structure vex_state where
  valid : Nat
  sent : Nat
  cached : vex_cached
deriving DecidableEq

/-- One request lane (`conn->local` / `conn->remote`): outer FSM state and
the pending procedure queue. -/
structure req_lane where
  state : Nat
  pend_proc_list : List proc_ctx
deriving DecidableEq

/-- `struct ull_cp_conn`.  The field `loc` embeds `conn->local` and `rem`
embeds `conn->remote` (`local` is a Lean keyword). -/
structure ull_cp_conn where
  loc : req_lane
  rem : req_lane
  vex : vex_state
deriving DecidableEq

/-- The whole engine state: the three process-wide pools (as free-block
counts), the context-pool meter (acquires minus releases), one connection,
the control-PDU queue towards the LLL (`ull_tx_q_enqueue_ctrl` target) and
the RX queue towards the host (`ll_rx_enqueue` target). -/
structure EngineSt where
  memCtxFree : Nat
  memTxFree : Nat
  memNtfFree : Nat
  ctxAcquired : Nat
  conn : ull_cp_conn
  txQ : List pdu_data
  llRxQ : List pdu_data
deriving DecidableEq

/-! ## Resource management -/

/-- `proc_ctx_acquire`: `mem_acquire(&mem_ctx.free)`; NULL when the pool is
exhausted.  The acquired block's fields read 0 (zeroed static storage,
never recycled). -/
def proc_ctx_acquire (st : EngineSt) : Option proc_ctx × EngineSt :=
  if st.memCtxFree = 0 then
    (none, st)
  else
    (some { proc := 0, state := 0, opcode := 0, collision := 0, pause := 0 },
     { st with memCtxFree := st.memCtxFree - 1, ctxAcquired := st.ctxAcquired + 1 })

/-- `proc_ctx_release`: `mem_release(ctx, &mem_ctx.free)`.  Defined in the
source but not invoked from any of its functions. -/
def proc_ctx_release (st : EngineSt) : EngineSt :=
  { st with memCtxFree := st.memCtxFree + 1, ctxAcquired := st.ctxAcquired - 1 }

/-- `tx_alloc_peek`: is at least one transmit-control block free. -/
def tx_alloc_peek (st : EngineSt) : Bool :=
  st.memTxFree != 0

/-- `ntf_alloc_peek`: is at least one notification block free. -/
def ntf_alloc_peek (st : EngineSt) : Bool :=
  st.memNtfFree != 0

/-! ## Procedure creation -/

/-- `create_procedure`: acquire a context and initialise `proc`, `state`,
`collision`, `pause` (the C source does not write `opcode`; see
`proc_ctx_acquire`). -/
def create_procedure (st : EngineSt) (proc : Nat) : Option proc_ctx × EngineSt :=
  match proc_ctx_acquire st with
  | (none, st) => (none, st)
  | (some ctx, st) =>
    (some { ctx with proc := proc, state := LP_COMMON_STATE_IDLE,
                     collision := 0, pause := 0 }, st)

/-! ## Version Exchange codec -/

/-- `pdu_encode_version_ind`: fill a control PDU with our identity.  The
`u16` settings values land in `u16` struct members and are then serialised
little-endian; byte-narrowing is the explicit `% 256`. -/
def pdu_encode_version_ind (cfg : Settings) : pdu_data :=
  { ll_id := PDU_DATA_LLID_CTRL
    len := VERSION_IND_PDU_LEN
    opcode := PDU_DATA_LLCTRL_TYPE_VERSION_IND
    version_number := cfg.ll_version_number % 256
    company_id_lo := cfg.company_id % 256
    company_id_hi := cfg.company_id / 256 % 256
    sub_version_lo := cfg.subversion_number % 256
    sub_version_hi := cfg.subversion_number / 256 % 256 }

/-- `ntf_encode_version_ind`: same shape, payload from the cached peer
record. -/
def ntf_encode_version_ind (conn : ull_cp_conn) : pdu_data :=
  { ll_id := PDU_DATA_LLID_CTRL
    len := VERSION_IND_PDU_LEN
    opcode := PDU_DATA_LLCTRL_TYPE_VERSION_IND
    version_number := conn.vex.cached.version_number % 256
    company_id_lo := conn.vex.cached.company_id % 256
    company_id_hi := conn.vex.cached.company_id / 256 % 256
    sub_version_lo := conn.vex.cached.sub_version_number % 256
    sub_version_hi := conn.vex.cached.sub_version_number / 256 % 256 }

/-- `pdu_decode_version_ind`: set `vex.valid`, store the version octet
as-is, and assemble the two little-endian `u16` fields back to host order
(`sys_le16_to_cpu`); each wire octet is a `u8`, hence the `% 256`. -/
def pdu_decode_version_ind (conn : ull_cp_conn) (pdu : pdu_data) : ull_cp_conn :=
  { conn with vex :=
    { conn.vex with
      valid := 1
      cached :=
      { version_number := pdu.version_number % 256
        company_id := pdu.company_id_lo % 256 + 256 * (pdu.company_id_hi % 256)
        sub_version_number := pdu.sub_version_lo % 256 + 256 * (pdu.sub_version_hi % 256) } } }

/-! ## Lane queue primitives -/

/-- `lr_enqueue`: `sys_slist_append(&conn->local.pend_proc_list, ...)`. -/
def lr_enqueue (st : EngineSt) (ctx : proc_ctx) : EngineSt :=
  { st with conn := { st.conn with loc :=
    { st.conn.loc with pend_proc_list := st.conn.loc.pend_proc_list ++ [ctx] } } }

/-- `lr_dequeue`: `sys_slist_get` on the local queue; drops the head (no-op
on an empty list, where the C helper returns NULL).  The returned pointer
is discarded by every caller. -/
def lr_dequeue (st : EngineSt) : EngineSt :=
  { st with conn := { st.conn with loc :=
    { st.conn.loc with pend_proc_list := st.conn.loc.pend_proc_list.tail } } }

/-- `lr_peek`: `sys_slist_peek_head` on the local queue. -/
def lr_peek (st : EngineSt) : Option proc_ctx :=
  st.conn.loc.pend_proc_list.head?

/-- `rr_enqueue`: append on the remote queue. -/
def rr_enqueue (st : EngineSt) (ctx : proc_ctx) : EngineSt :=
  { st with conn := { st.conn with rem :=
    { st.conn.rem with pend_proc_list := st.conn.rem.pend_proc_list ++ [ctx] } } }

/-- `rr_dequeue`: drop the head of the remote queue. -/
def rr_dequeue (st : EngineSt) : EngineSt :=
  { st with conn := { st.conn with rem :=
    { st.conn.rem with pend_proc_list := st.conn.rem.pend_proc_list.tail } } }

/-- `rr_peek`: head of the remote queue. -/
def rr_peek (st : EngineSt) : Option proc_ctx :=
  st.conn.rem.pend_proc_list.head?

/-- Embeds a field write through the `ctx` pointer held by the local
procedure FSM: that pointer is always the head of the local queue (every
call site obtained it from `lr_peek`). -/
def upd_lp_ctx (f : proc_ctx → proc_ctx) (st : EngineSt) : EngineSt :=
  { st with conn := { st.conn with loc :=
    { st.conn.loc with pend_proc_list :=
      match st.conn.loc.pend_proc_list with
      | [] => []
      | c :: cs => f c :: cs } } }

/-- Embeds a field write through the `ctx` pointer held by the remote
procedure FSM: that pointer is always the head of the remote queue. -/
def upd_rp_ctx (f : proc_ctx → proc_ctx) (st : EngineSt) : EngineSt :=
  { st with conn := { st.conn with rem :=
    { st.conn.rem with pend_proc_list :=
      match st.conn.rem.pend_proc_list with
      | [] => []
      | c :: cs => f c :: cs } } }

/-- Set the local lane's outer FSM state. -/
def set_lr_state (s : Nat) (st : EngineSt) : EngineSt :=
  { st with conn := { st.conn with loc := { st.conn.loc with state := s } } }

/-- Set the remote lane's outer FSM state. -/
def set_rr_state (s : Nat) (st : EngineSt) : EngineSt :=
  { st with conn := { st.conn with rem := { st.conn.rem with state := s } } }

/-- Set `conn->vex.sent = 1`. -/
def set_vex_sent (st : EngineSt) : EngineSt :=
  { st with conn := { st.conn with vex := { st.conn.vex with sent := 1 } } }

/-! ## Lane completion signals

`lr_complete` / `rr_complete` are `lr_execute_fsm` / `rr_execute_fsm`
applied to the COMPLETE event.  On that event no handler re-enters a
procedure FSM, so the two are defined first, by specialising the outer
FSM's dispatch to the COMPLETE row of each state handler; the lemmas
`lr_execute_fsm_complete` and `rr_execute_fsm_complete` below prove the
specialisation exact. -/

/-- `lr_complete`: deliver LR_EVT_COMPLETE to the local request FSM.
DISCONNECT and IDLE states ignore it; ACTIVE dequeues the completed head
(`lr_act_complete`) and returns to IDLE; an out-of-range state is the
`LL_ASSERT(0)` of `lr_execute_fsm`. -/
def lr_complete (st : EngineSt) : Option EngineSt :=
  if st.conn.loc.state = LR_STATE_DISCONNECT then some st
  else if st.conn.loc.state = LR_STATE_IDLE then some st
  else if st.conn.loc.state = LR_STATE_ACTIVE then
    some (set_lr_state LR_STATE_IDLE (lr_dequeue st))
  else none

/-- `rr_complete`: deliver RR_EVT_COMPLETE to the remote request FSM. -/
def rr_complete (st : EngineSt) : Option EngineSt :=
  if st.conn.rem.state = RR_STATE_DISCONNECT then some st
  else if st.conn.rem.state = RR_STATE_IDLE then some st
  else if st.conn.rem.state = RR_STATE_ACTIVE then
    some (set_rr_state RR_STATE_IDLE (rr_dequeue st))
  else none

/-! ## Local Procedure Common FSM -/

/-- `lp_comm_tx`: allocate a tx node (`LL_ASSERT(tx)` aborts when the pool
is empty), encode the control PDU for the context's procedure kind, record
the awaited opcode in the context, and enqueue towards the LLL. -/
def lp_comm_tx (cfg : Settings) (st : EngineSt) (ctx : proc_ctx) : Option EngineSt :=
  if st.memTxFree = 0 then none
  else if ctx.proc = PROC_VERSION_EXCHANGE then
    let st := { st with memTxFree := st.memTxFree - 1 }
    let st := upd_lp_ctx (fun c => { c with opcode := PDU_DATA_LLCTRL_TYPE_VERSION_IND }) st
    some { st with txQ := st.txQ ++ [pdu_encode_version_ind cfg] }
  else none

/-- `lp_comm_ntf`: allocate a notification node (`LL_ASSERT(ntf)` aborts
when the pool is empty), encode the notification from the cached peer
record, and enqueue towards the host. -/
def lp_comm_ntf (st : EngineSt) (ctx : proc_ctx) : Option EngineSt :=
  if st.memNtfFree = 0 then none
  else if ctx.proc = PROC_VERSION_EXCHANGE then
    some { st with memNtfFree := st.memNtfFree - 1,
                   llRxQ := st.llRxQ ++ [ntf_encode_version_ind st.conn] }
  else none

/-- `lp_comm_complete`: completion attempt.  Without a free notification
block the context parks in WAIT_NTF; otherwise the notification goes out,
the lane is signalled COMPLETE and the context returns to IDLE (the
embedding writes the context state just before the lane signal; see the
module comment). -/
def lp_comm_complete (st : EngineSt) (ctx : proc_ctx) : Option EngineSt :=
  if ctx.proc = PROC_VERSION_EXCHANGE then
    if ntf_alloc_peek st = false then
      some (upd_lp_ctx (fun c => { c with state := LP_COMMON_STATE_WAIT_NTF }) st)
    else do
      let st ← lp_comm_ntf st ctx
      let st := upd_lp_ctx (fun c => { c with state := LP_COMMON_STATE_IDLE }) st
      lr_complete st
  else none

/-- `lp_comm_send_req`: at most one LL_VERSION_IND is ever queued per
connection.  If ours is still unsent, gate on the tx pool and the pause
flag (park in WAIT_TX on failure), else transmit, set `vex.sent` and await
the response in WAIT_RX.  If ours was already sent, complete directly. -/
def lp_comm_send_req (cfg : Settings) (st : EngineSt) (ctx : proc_ctx) : Option EngineSt :=
  if ctx.proc = PROC_VERSION_EXCHANGE then
    if st.conn.vex.sent = 0 then
      if tx_alloc_peek st = false ∨ ctx.pause ≠ 0 then
        some (upd_lp_ctx (fun c => { c with state := LP_COMMON_STATE_WAIT_TX }) st)
      else do
        let st ← lp_comm_tx cfg st ctx
        let st := set_vex_sent st
        some (upd_lp_ctx (fun c => { c with state := LP_COMMON_STATE_WAIT_RX }) st)
    else
      lp_comm_complete st ctx
  else none

/-- `lp_comm_st_idle`: RUN with the pause flag set parks in WAIT_TX, RUN
otherwise attempts the request; every other event is ignored. -/
def lp_comm_st_idle (cfg : Settings) (st : EngineSt) (ctx : proc_ctx) (evt : Nat) :
    Option EngineSt :=
  if evt = LP_COMMON_EVT_RUN then
    if ctx.pause ≠ 0 then
      some (upd_lp_ctx (fun c => { c with state := LP_COMMON_STATE_WAIT_TX }) st)
    else
      lp_comm_send_req cfg st ctx
  else some st

/-- `lp_comm_st_wait_tx`: empty in the source. -/
def lp_comm_st_wait_tx (st : EngineSt) : Option EngineSt :=
  some st

/-- `lp_comm_rx_decode`: decode by opcode; an unknown opcode is
`LL_ASSERT(0)`. -/
def lp_comm_rx_decode (st : EngineSt) (pdu : pdu_data) : Option EngineSt :=
  if pdu.opcode = PDU_DATA_LLCTRL_TYPE_VERSION_IND then
    some { st with conn := pdu_decode_version_ind st.conn pdu }
  else none

/-- `lp_comm_st_wait_rx`: RESPONSE decodes the PDU then attempts
completion; other events are ignored (the missing `break` in the C switch
only falls into the empty default). -/
def lp_comm_st_wait_rx (st : EngineSt) (ctx : proc_ctx) (evt : Nat)
    (param : Option pdu_data) : Option EngineSt :=
  if evt = LP_COMMON_EVT_RESPONSE then
    match param with
    | some pdu => do
      let st ← lp_comm_rx_decode st pdu
      lp_comm_complete st ctx
    | none => none
  else some st

/-- `lp_comm_st_wait_ntf`: empty in the source. -/
def lp_comm_st_wait_ntf (st : EngineSt) : Option EngineSt :=
  some st

/-- `lp_comm_execute_fsm`: dispatch on the context's state; an unknown
state is `LL_ASSERT(0)`. -/
def lp_comm_execute_fsm (cfg : Settings) (st : EngineSt) (ctx : proc_ctx) (evt : Nat)
    (param : Option pdu_data) : Option EngineSt :=
  if ctx.state = LP_COMMON_STATE_IDLE then lp_comm_st_idle cfg st ctx evt
  else if ctx.state = LP_COMMON_STATE_WAIT_TX then lp_comm_st_wait_tx st
  else if ctx.state = LP_COMMON_STATE_WAIT_RX then lp_comm_st_wait_rx st ctx evt param
  else if ctx.state = LP_COMMON_STATE_WAIT_NTF then lp_comm_st_wait_ntf st
  else none

/-! ## Local Request FSM -/

/-- `lr_rx`: forward a received PDU to the local procedure FSM as
RESPONSE. -/
def lr_rx (cfg : Settings) (st : EngineSt) (ctx : proc_ctx) (pdu : pdu_data) :
    Option EngineSt :=
  lp_comm_execute_fsm cfg st ctx LP_COMMON_EVT_RESPONSE (some pdu)

/-- `lr_act_run`: peek the head context (a NULL head would dereference)
and run its procedure FSM; an unknown procedure kind is `LL_ASSERT(0)`. -/
def lr_act_run (cfg : Settings) (st : EngineSt) : Option EngineSt :=
  match lr_peek st with
  | none => none
  | some ctx =>
    if ctx.proc = PROC_VERSION_EXCHANGE then
      lp_comm_execute_fsm cfg st ctx LP_COMMON_EVT_RUN none
    else none

/-- `lr_act_complete`: dequeue the pending request that just completed
(the storage is not released; `proc_ctx_release` is never called). -/
def lr_act_complete (st : EngineSt) : EngineSt :=
  lr_dequeue st

/-- `lr_act_connect`: empty in the source. -/
def lr_act_connect (st : EngineSt) : EngineSt :=
  st

/-- `lr_act_disconnect`: a single `lr_dequeue` (only the head is removed;
nothing is released). -/
def lr_act_disconnect (st : EngineSt) : EngineSt :=
  lr_dequeue st

/-- `lr_st_disconnect`: only CONNECT is handled. -/
def lr_st_disconnect (st : EngineSt) (evt : Nat) : Option EngineSt :=
  if evt = LR_EVT_CONNECT then
    some (set_lr_state LR_STATE_IDLE (lr_act_connect st))
  else some st

/-- `lr_st_idle`: RUN dispatches the head context (when one exists) and
only then marks the lane ACTIVE; DISCONNECT runs the disconnect action. -/
def lr_st_idle (cfg : Settings) (st : EngineSt) (evt : Nat) : Option EngineSt :=
  if evt = LR_EVT_RUN then
    match lr_peek st with
    | some _ => do
      let st ← lr_act_run cfg st
      some (set_lr_state LR_STATE_ACTIVE st)
    | none => some st
  else if evt = LR_EVT_DISCONNECT then
    some (set_lr_state LR_STATE_DISCONNECT (lr_act_disconnect st))
  else some st

/-- `lr_st_active`: COMPLETE dequeues the head and returns to IDLE;
DISCONNECT as in IDLE; everything else is ignored. -/
def lr_st_active (st : EngineSt) (evt : Nat) : Option EngineSt :=
  if evt = LR_EVT_COMPLETE then
    some (set_lr_state LR_STATE_IDLE (lr_act_complete st))
  else if evt = LR_EVT_DISCONNECT then
    some (set_lr_state LR_STATE_DISCONNECT (lr_act_disconnect st))
  else some st

/-- `lr_execute_fsm`: dispatch on the local lane state; an unknown state
is `LL_ASSERT(0)`. -/
def lr_execute_fsm (cfg : Settings) (st : EngineSt) (evt : Nat) : Option EngineSt :=
  if st.conn.loc.state = LR_STATE_DISCONNECT then lr_st_disconnect st evt
  else if st.conn.loc.state = LR_STATE_IDLE then lr_st_idle cfg st evt
  else if st.conn.loc.state = LR_STATE_ACTIVE then lr_st_active st evt
  else none

/-- `lr_run`. -/
def lr_run (cfg : Settings) (st : EngineSt) : Option EngineSt :=
  lr_execute_fsm cfg st LR_EVT_RUN

/-- `lr_connect`. -/
def lr_connect (cfg : Settings) (st : EngineSt) : Option EngineSt :=
  lr_execute_fsm cfg st LR_EVT_CONNECT

/-- `lr_disconnect`. -/
def lr_disconnect (cfg : Settings) (st : EngineSt) : Option EngineSt :=
  lr_execute_fsm cfg st LR_EVT_DISCONNECT

/-! ## Remote Procedure Common FSM -/

/-- `rp_comm_rx_decode`: decode by opcode; an unknown opcode is
`LL_ASSERT(0)`. -/
def rp_comm_rx_decode (st : EngineSt) (pdu : pdu_data) : Option EngineSt :=
  if pdu.opcode = PDU_DATA_LLCTRL_TYPE_VERSION_IND then
    some { st with conn := pdu_decode_version_ind st.conn pdu }
  else none

/-- `rp_comm_tx`: allocate a tx node (`LL_ASSERT(tx)` on exhaustion),
encode the response, record the awaited opcode, enqueue towards the LLL. -/
def rp_comm_tx (cfg : Settings) (st : EngineSt) (ctx : proc_ctx) : Option EngineSt :=
  if st.memTxFree = 0 then none
  else if ctx.proc = PROC_VERSION_EXCHANGE then
    let st := { st with memTxFree := st.memTxFree - 1 }
    let st := upd_rp_ctx (fun c => { c with opcode := PDU_DATA_LLCTRL_TYPE_VERSION_IND }) st
    some { st with txQ := st.txQ ++ [pdu_encode_version_ind cfg] }
  else none

/-- `rp_comm_st_idle`: RUN moves to WAIT_RX; everything else is ignored. -/
def rp_comm_st_idle (st : EngineSt) (evt : Nat) : Option EngineSt :=
  if evt = RP_COMMON_EVT_RUN then
    some (upd_rp_ctx (fun c => { c with state := RP_COMMON_STATE_WAIT_RX }) st)
  else some st

/-- `rp_comm_send_rsp`: if our VERSION_IND is unsent, gate on the tx pool
and pause (park in WAIT_TX on failure), else transmit, set `vex.sent`,
signal the lane COMPLETE and return the context to IDLE (state write just
before the lane signal, see the module comment).  A request arriving with
`vex.sent` already set is the protocol-error `LL_ASSERT(0)`. -/
def rp_comm_send_rsp (cfg : Settings) (st : EngineSt) (ctx : proc_ctx) : Option EngineSt :=
  if ctx.proc = PROC_VERSION_EXCHANGE then
    if st.conn.vex.sent = 0 then
      if tx_alloc_peek st = false ∨ ctx.pause ≠ 0 then
        some (upd_rp_ctx (fun c => { c with state := RP_COMMON_STATE_WAIT_TX }) st)
      else do
        let st ← rp_comm_tx cfg st ctx
        let st := set_vex_sent st
        let st := upd_rp_ctx (fun c => { c with state := RP_COMMON_STATE_IDLE }) st
        rr_complete st
    else none
  else none

/-- `rp_comm_st_wait_rx`: REQUEST decodes the PDU, then parks in WAIT_TX
when paused, else attempts the response; other events are ignored. -/
def rp_comm_st_wait_rx (cfg : Settings) (st : EngineSt) (ctx : proc_ctx) (evt : Nat)
    (param : Option pdu_data) : Option EngineSt :=
  if evt = RP_COMMON_EVT_REQUEST then
    match param with
    | some pdu => do
      let st ← rp_comm_rx_decode st pdu
      if ctx.pause ≠ 0 then
        some (upd_rp_ctx (fun c => { c with state := RP_COMMON_STATE_WAIT_TX }) st)
      else
        rp_comm_send_rsp cfg st ctx
    | none => none
  else some st

/-- `rp_comm_st_wait_tx`: empty in the source. -/
def rp_comm_st_wait_tx (st : EngineSt) : Option EngineSt :=
  some st

/-- `rp_comm_st_wait_ntf`: empty in the source. -/
def rp_comm_st_wait_ntf (st : EngineSt) : Option EngineSt :=
  some st

/-- `rp_comm_execute_fsm`: dispatch on the context's state (remote
numbering); an unknown state is `LL_ASSERT(0)`. -/
def rp_comm_execute_fsm (cfg : Settings) (st : EngineSt) (ctx : proc_ctx) (evt : Nat)
    (param : Option pdu_data) : Option EngineSt :=
  if ctx.state = RP_COMMON_STATE_IDLE then rp_comm_st_idle st evt
  else if ctx.state = RP_COMMON_STATE_WAIT_RX then rp_comm_st_wait_rx cfg st ctx evt param
  else if ctx.state = RP_COMMON_STATE_WAIT_TX then rp_comm_st_wait_tx st
  else if ctx.state = RP_COMMON_STATE_WAIT_NTF then rp_comm_st_wait_ntf st
  else none

/-! ## Remote Request FSM -/

/-- `rr_rx`: forward a received PDU to the remote procedure FSM as
REQUEST. -/
def rr_rx (cfg : Settings) (st : EngineSt) (ctx : proc_ctx) (pdu : pdu_data) :
    Option EngineSt :=
  rp_comm_execute_fsm cfg st ctx RP_COMMON_EVT_REQUEST (some pdu)

/-- `rr_act_run`: peek the head context and run its procedure FSM. -/
def rr_act_run (cfg : Settings) (st : EngineSt) : Option EngineSt :=
  match rr_peek st with
  | none => none
  | some ctx =>
    if ctx.proc = PROC_VERSION_EXCHANGE then
      rp_comm_execute_fsm cfg st ctx RP_COMMON_EVT_RUN none
    else none

/-- `rr_act_complete`: dequeue the completed head (nothing released). -/
def rr_act_complete (st : EngineSt) : EngineSt :=
  rr_dequeue st

/-- `rr_act_connect`: empty in the source. -/
def rr_act_connect (st : EngineSt) : EngineSt :=
  st

/-- `rr_act_disconnect`: a single `rr_dequeue`. -/
def rr_act_disconnect (st : EngineSt) : EngineSt :=
  rr_dequeue st

/-- `rr_st_disconnect`: only CONNECT is handled. -/
def rr_st_disconnect (st : EngineSt) (evt : Nat) : Option EngineSt :=
  if evt = RR_EVT_CONNECT then
    some (set_rr_state RR_STATE_IDLE (rr_act_connect st))
  else some st

/-- `rr_st_idle`: RUN dispatches the head context (when one exists) and
only then marks the lane ACTIVE; DISCONNECT runs the disconnect action. -/
def rr_st_idle (cfg : Settings) (st : EngineSt) (evt : Nat) : Option EngineSt :=
  if evt = RR_EVT_RUN then
    match rr_peek st with
    | some _ => do
      let st ← rr_act_run cfg st
      some (set_rr_state RR_STATE_ACTIVE st)
    | none => some st
  else if evt = RR_EVT_DISCONNECT then
    some (set_rr_state RR_STATE_DISCONNECT (rr_act_disconnect st))
  else some st

/-- `rr_st_active`: COMPLETE dequeues the head and returns to IDLE;
DISCONNECT as in IDLE; everything else is ignored. -/
def rr_st_active (st : EngineSt) (evt : Nat) : Option EngineSt :=
  if evt = RR_EVT_COMPLETE then
    some (set_rr_state RR_STATE_IDLE (rr_act_complete st))
  else if evt = RR_EVT_DISCONNECT then
    some (set_rr_state RR_STATE_DISCONNECT (rr_act_disconnect st))
  else some st

/-- `rr_execute_fsm`: dispatch on the remote lane state. -/
def rr_execute_fsm (cfg : Settings) (st : EngineSt) (evt : Nat) : Option EngineSt :=
  if st.conn.rem.state = RR_STATE_DISCONNECT then rr_st_disconnect st evt
  else if st.conn.rem.state = RR_STATE_IDLE then rr_st_idle cfg st evt
  else if st.conn.rem.state = RR_STATE_ACTIVE then rr_st_active st evt
  else none

/-- `rr_run`. -/
def rr_run (cfg : Settings) (st : EngineSt) : Option EngineSt :=
  rr_execute_fsm cfg st RR_EVT_RUN

/-- `rr_connect`. -/
def rr_connect (cfg : Settings) (st : EngineSt) : Option EngineSt :=
  rr_execute_fsm cfg st RR_EVT_CONNECT

/-- `rr_disconnect`. -/
def rr_disconnect (cfg : Settings) (st : EngineSt) : Option EngineSt :=
  rr_execute_fsm cfg st RR_EVT_DISCONNECT

/-- `rr_new`: spawn a remote procedure for an incoming PDU.  Opcodes other
than VERSION_IND are `LL_ASSERT(0)`.  When the context pool is exhausted
the function returns with nothing changed; otherwise the context is
enqueued, RUN is fired on the remote lane, and the PDU is delivered to the
(new) queue head as REQUEST. -/
def rr_new (cfg : Settings) (st : EngineSt) (pdu : pdu_data) : Option EngineSt :=
  if pdu.opcode = PDU_DATA_LLCTRL_TYPE_VERSION_IND then
    match create_procedure st PROC_VERSION_EXCHANGE with
    | (none, st) => some st
    | (some ctx, st) => do
      let st := rr_enqueue st ctx
      let st ← rr_run cfg st
      match rr_peek st with
      | some c => rr_rx cfg st c pdu
      | none => none
  else none

/-! ## Public API -/

/-- `ull_cp_init`: initialise the three pools to their configured
capacities.  The engine record also carries the (not yet initialised,
zero) connection object of static storage. -/
def ull_cp_init (cfg : Settings) : EngineSt :=
  { memCtxFree := cfg.PROC_CTX_BUF_NUM
    memTxFree := cfg.TX_CTRL_BUF_NUM
    memNtfFree := cfg.NTF_BUF_NUM
    ctxAcquired := 0
    conn :=
    { loc := { state := 0, pend_proc_list := [] }
      rem := { state := 0, pend_proc_list := [] }
      vex := { valid := 0, sent := 0,
               cached := { version_number := 0, company_id := 0, sub_version_number := 0 } } }
    txQ := []
    llRxQ := [] }

/-- `ull_cp_conn_init`: park both lanes in DISCONNECT, empty both queues
(`sys_slist_init`), and `memset` the vex record to zero. -/
def ull_cp_conn_init (st : EngineSt) : EngineSt :=
  { st with conn :=
    { loc := { state := LR_STATE_DISCONNECT, pend_proc_list := [] }
      rem := { state := RR_STATE_DISCONNECT, pend_proc_list := [] }
      vex := { valid := 0, sent := 0,
               cached := { version_number := 0, company_id := 0, sub_version_number := 0 } } } }

/-- `ull_cp_run`: RUN on the remote lane, then on the local lane. -/
def ull_cp_run (cfg : Settings) (st : EngineSt) : Option EngineSt := do
  let st ← rr_run cfg st
  lr_run cfg st

/-- `ull_cp_connect`: CONNECT on both lanes. -/
def ull_cp_connect (cfg : Settings) (st : EngineSt) : Option EngineSt := do
  let st ← rr_connect cfg st
  lr_connect cfg st

/-- `ull_cp_disconnect`: DISCONNECT on both lanes. -/
def ull_cp_disconnect (cfg : Settings) (st : EngineSt) : Option EngineSt := do
  let st ← rr_disconnect cfg st
  lr_disconnect cfg st

/-- `ull_cp_version_exchange`: allocate a VersionExchange context and
enqueue it on the local lane; CMD_DISALLOWED when the pool is exhausted. -/
def ull_cp_version_exchange (st : EngineSt) : Nat × EngineSt :=
  match create_procedure st PROC_VERSION_EXCHANGE with
  | (none, st) => (BT_HCI_ERR_CMD_DISALLOWED, st)
  | (some ctx, st) => (BT_HCI_ERR_SUCCESS, lr_enqueue st ctx)

/-- `ull_cp_rx`: dispatch a received control PDU.  A local head context
awaiting this opcode takes it as RESPONSE; else a remote head context
awaiting it takes it as REQUEST; else it spawns a new remote procedure
(the final `switch` falls through its sole `default` label to `rr_new`). -/
def ull_cp_rx (cfg : Settings) (st : EngineSt) (pdu : pdu_data) : Option EngineSt :=
  match lr_peek st with
  | some ctx =>
    if ctx.opcode = pdu.opcode then lr_rx cfg st ctx pdu
    else
      match rr_peek st with
      | some c2 =>
        if c2.opcode = pdu.opcode then rr_rx cfg st c2 pdu
        else rr_new cfg st pdu
      | none => rr_new cfg st pdu
  | none =>
    match rr_peek st with
    | some c2 =>
      if c2.opcode = pdu.opcode then rr_rx cfg st c2 pdu
      else rr_new cfg st pdu
    | none => rr_new cfg st pdu

/-! ## Engine operations as a step relation

One engine entry point invoked on the connection, for the temporal
claims. -/

/-- A single invocation of a public entry point on the connection. -/
inductive Op where
  | connInit : Op
  | connect : Op
  | disconnect : Op
  | run : Op
  | versionExchange : Op
  | rx : pdu_data → Op
deriving DecidableEq

/-- One engine step: execute the entry point; `none` is an
`LL_ASSERT`/crash. -/
def step (cfg : Settings) (st : EngineSt) : Op → Option EngineSt
  | Op.connInit => some (ull_cp_conn_init st)
  | Op.connect => ull_cp_connect cfg st
  | Op.disconnect => ull_cp_disconnect cfg st
  | Op.run => ull_cp_run cfg st
  | Op.versionExchange => some (ull_cp_version_exchange st).2
  | Op.rx pdu => ull_cp_rx cfg st pdu

/-- Execute a sequence of entry points. -/
def steps (cfg : Settings) (st : EngineSt) : List Op → Option EngineSt
  | [] => some st
  | op :: ops => do
    let st ← step cfg st op
    steps cfg st ops

/-! ## Concrete inputs used by witnesses and counter-runs -/

/-- A concrete configuration: identity `{8, 0x05F1, 0x2222}`, all pools of
capacity 1 (the source defaults). -/
def cfg1 : Settings :=
  { ll_version_number := 8, company_id := 0x05F1, subversion_number := 0x2222,
    PROC_CTX_BUF_NUM := 1, TX_CTRL_BUF_NUM := 1, NTF_BUF_NUM := 1 }

/-- As `cfg1`, with a context pool of capacity 2. -/
def cfg2 : Settings :=
  { cfg1 with PROC_CTX_BUF_NUM := 2 }

/-- A peer VERSION_IND carrying `{0x0A, 0x1234, 0x5678}` (the `u16` fields
in little-endian wire order). -/
def peerPdu : pdu_data :=
  { ll_id := 3, len := 6, opcode := 0x0C, version_number := 0x0A,
    company_id_lo := 0x34, company_id_hi := 0x12,
    sub_version_lo := 0x78, sub_version_hi := 0x56 }

/-- The host notification the engine emits after decoding `peerPdu`: the
same wire shape, carrying the cached peer values. -/
def peerNtfPdu : pdu_data :=
  { ll_id := 3, len := 6, opcode := 0x0C, version_number := 0x0A,
    company_id_lo := 0x34, company_id_hi := 0x12,
    sub_version_lo := 0x78, sub_version_hi := 0x56 }

/-- A connection state with both lanes idle and empty, pools free, and a
version exchange already completed by the peer (`vex.sent = 1`, peer
record cached): the state reached by
`init; conn_init; connect; rx(peerPdu)` under `cfg2`. -/
def stAfterRemoteVex : EngineSt :=
  { memCtxFree := 1, memTxFree := 0, memNtfFree := 1, ctxAcquired := 1,
    conn :=
    { loc := { state := LR_STATE_IDLE, pend_proc_list := [] }
      rem := { state := RR_STATE_IDLE, pend_proc_list := [] }
      vex := { valid := 1, sent := 1,
               cached := { version_number := 10, company_id := 0x1234,
                           sub_version_number := 0x5678 } } }
    txQ := [pdu_encode_version_ind cfg2]
    llRxQ := [] }

/-- An idle connected engine state under `cfg1` (pools full, both lanes
idle and empty, vex cleared): the state reached by
`init; conn_init; connect`. -/
def stIdle1 : EngineSt :=
  { memCtxFree := 1, memTxFree := 1, memNtfFree := 1, ctxAcquired := 0,
    conn :=
    { loc := { state := LR_STATE_IDLE, pend_proc_list := [] }
      rem := { state := RR_STATE_IDLE, pend_proc_list := [] }
      vex := { valid := 0, sent := 0,
               cached := { version_number := 0, company_id := 0, sub_version_number := 0 } } }
    txQ := []
    llRxQ := [] }

/-- `stIdle1` with an exhausted context pool (every block already
acquired). -/
def stIdleNoCtx : EngineSt :=
  { stIdle1 with memCtxFree := 0, ctxAcquired := 1 }

/-- `stIdle1` with a local version-exchange procedure awaiting its
response at the head of the local lane (awaited opcode VERSION_IND). -/
def stLocalWaitRx : EngineSt :=
  { stIdle1 with
    memTxFree := 0
    conn := { stIdle1.conn with
      loc := { state := LR_STATE_ACTIVE,
               pend_proc_list := [{ proc := PROC_VERSION_EXCHANGE,
                                    state := LP_COMMON_STATE_WAIT_RX,
                                    opcode := PDU_DATA_LLCTRL_TYPE_VERSION_IND,
                                    collision := 0, pause := 0 }] }
      vex := { stIdle1.conn.vex with sent := 1 } } }

/-- `stIdle1` with a remote version-exchange procedure awaiting the peer's
request at the head of the remote lane. -/
def stRemoteWaitRx : EngineSt :=
  { stIdle1 with
    conn := { stIdle1.conn with
      rem := { state := RR_STATE_ACTIVE,
               pend_proc_list := [{ proc := PROC_VERSION_EXCHANGE,
                                    state := RP_COMMON_STATE_WAIT_RX,
                                    opcode := PDU_DATA_LLCTRL_TYPE_VERSION_IND,
                                    collision := 0, pause := 0 }] } } }

/-- A freshly submitted (never run) local version-exchange context. -/
def ctxFreshVex : proc_ctx :=
  { proc := PROC_VERSION_EXCHANGE, state := LP_COMMON_STATE_IDLE,
    opcode := 0, collision := 0, pause := 0 }

/-- `stIdle1` with a freshly submitted local version-exchange context at
the head of the local lane. -/
def stLocalSubmitted : EngineSt :=
  { stIdle1 with
    memCtxFree := 0, ctxAcquired := 1
    conn := { stIdle1.conn with
      loc := { stIdle1.conn.loc with pend_proc_list := [ctxFreshVex] } } }

/-- `stLocalSubmitted` with an exhausted transmit pool. -/
def stLocalSubmittedNoTx : EngineSt :=
  { stLocalSubmitted with memTxFree := 0 }

/-! ## Faithfulness of the stratified completion signals -/

/-- The stratified `lr_complete` is exactly `lr_execute_fsm` at the
COMPLETE event. -/
theorem lr_execute_fsm_complete (cfg : Settings) (st : EngineSt) :
    lr_execute_fsm cfg st LR_EVT_COMPLETE = lr_complete st := by
  unfold lr_execute_fsm lr_complete lr_st_disconnect lr_st_idle lr_st_active
  unfold LR_EVT_COMPLETE LR_EVT_RUN LR_EVT_CONNECT LR_EVT_DISCONNECT lr_act_complete
  split <;> simp

/-- The stratified `rr_complete` is exactly `rr_execute_fsm` at the
COMPLETE event. -/
theorem rr_execute_fsm_complete (cfg : Settings) (st : EngineSt) :
    rr_execute_fsm cfg st RR_EVT_COMPLETE = rr_complete st := by
  unfold rr_execute_fsm rr_complete rr_st_disconnect rr_st_idle rr_st_active
  unfold RR_EVT_COMPLETE RR_EVT_RUN RR_EVT_CONNECT RR_EVT_DISCONNECT rr_act_complete
  split <;> simp

/-! ## Projection lemmas: which state component each primitive touches -/

@[simp] theorem vex_upd_lp_ctx (f : proc_ctx → proc_ctx) (st : EngineSt) :
    (upd_lp_ctx f st).conn.vex = st.conn.vex := rfl

@[simp] theorem vex_upd_rp_ctx (f : proc_ctx → proc_ctx) (st : EngineSt) :
    (upd_rp_ctx f st).conn.vex = st.conn.vex := rfl

@[simp] theorem vex_lr_dequeue (st : EngineSt) :
    (lr_dequeue st).conn.vex = st.conn.vex := rfl

@[simp] theorem vex_rr_dequeue (st : EngineSt) :
    (rr_dequeue st).conn.vex = st.conn.vex := rfl

@[simp] theorem vex_lr_enqueue (st : EngineSt) (ctx : proc_ctx) :
    (lr_enqueue st ctx).conn.vex = st.conn.vex := rfl

@[simp] theorem vex_rr_enqueue (st : EngineSt) (ctx : proc_ctx) :
    (rr_enqueue st ctx).conn.vex = st.conn.vex := rfl

@[simp] theorem vex_set_lr_state (s : Nat) (st : EngineSt) :
    (set_lr_state s st).conn.vex = st.conn.vex := rfl

@[simp] theorem vex_set_rr_state (s : Nat) (st : EngineSt) :
    (set_rr_state s st).conn.vex = st.conn.vex := rfl

@[simp] theorem sent_set_vex_sent (st : EngineSt) :
    (set_vex_sent st).conn.vex.sent = 1 := rfl

@[simp] theorem sent_pdu_decode_version_ind (conn : ull_cp_conn) (pdu : pdu_data) :
    (pdu_decode_version_ind conn pdu).vex.sent = conn.vex.sent := rfl

/-! ## `vex.sent` preservation, function by function -/

/-- Unfolding lemma for the `Option` do-blocks of the embedding. -/
theorem engine_bind_eq_some {α β : Type} (x : Option α) (f : α → Option β) (b : β) :
    Bind.bind x f = some b ↔ ∃ a, x = some a ∧ f a = some b := by
  cases x <;> simp

theorem create_procedure_vex (st : EngineSt) (proc : Nat) :
    (create_procedure st proc).2.conn.vex = st.conn.vex := by
  unfold create_procedure proc_ctx_acquire
  by_cases hc : st.memCtxFree = 0 <;> simp [hc]

theorem lr_complete_vex (st st' : EngineSt) (h : lr_complete st = some st') :
    st'.conn.vex = st.conn.vex := by
  unfold lr_complete at h
  split at h
  · simp_all
  · split at h
    · simp_all
    · split at h
      · simp only [Option.some.injEq] at h
        subst h
        simp
      · exact absurd h (by simp)

theorem rr_complete_vex (st st' : EngineSt) (h : rr_complete st = some st') :
    st'.conn.vex = st.conn.vex := by
  unfold rr_complete at h
  split at h
  · simp_all
  · split at h
    · simp_all
    · split at h
      · simp only [Option.some.injEq] at h
        subst h
        simp
      · exact absurd h (by simp)

theorem lp_comm_tx_vex (cfg : Settings) (st : EngineSt) (ctx : proc_ctx) (st' : EngineSt)
    (h : lp_comm_tx cfg st ctx = some st') : st'.conn.vex = st.conn.vex := by
  unfold lp_comm_tx at h
  split at h
  · exact absurd h (by simp)
  · split at h
    · simp only [Option.some.injEq] at h
      subst h
      simp
    · exact absurd h (by simp)

theorem lp_comm_ntf_vex (st : EngineSt) (ctx : proc_ctx) (st' : EngineSt)
    (h : lp_comm_ntf st ctx = some st') : st'.conn.vex = st.conn.vex := by
  unfold lp_comm_ntf at h
  split at h
  · exact absurd h (by simp)
  · split at h
    · simp only [Option.some.injEq] at h
      subst h
      simp
    · exact absurd h (by simp)

theorem lp_comm_complete_vex (st : EngineSt) (ctx : proc_ctx) (st' : EngineSt)
    (h : lp_comm_complete st ctx = some st') : st'.conn.vex = st.conn.vex := by
  unfold lp_comm_complete at h
  split at h
  · split at h
    · simp only [Option.some.injEq] at h
      subst h
      simp
    · rw [engine_bind_eq_some] at h
      obtain ⟨st1, h1, h2⟩ := h
      have e1 := lp_comm_ntf_vex st ctx st1 h1
      have e2 := lr_complete_vex _ _ h2
      simp_all
  · exact absurd h (by simp)

theorem lp_comm_send_req_sent (cfg : Settings) (st : EngineSt) (ctx : proc_ctx)
    (st' : EngineSt) (h : lp_comm_send_req cfg st ctx = some st') :
    st'.conn.vex.sent = st.conn.vex.sent ∨ st'.conn.vex.sent = 1 := by
  unfold lp_comm_send_req at h
  split at h
  · split at h
    · split at h
      · simp only [Option.some.injEq] at h
        subst h
        simp
      · rw [engine_bind_eq_some] at h
        obtain ⟨st1, h1, h2⟩ := h
        simp only [Option.some.injEq] at h2
        subst h2
        simp
    · exact Or.inl (congrArg vex_state.sent (lp_comm_complete_vex st ctx st' h))
  · exact absurd h (by simp)

theorem lp_comm_st_idle_sent (cfg : Settings) (st : EngineSt) (ctx : proc_ctx) (evt : Nat)
    (st' : EngineSt) (h : lp_comm_st_idle cfg st ctx evt = some st') :
    st'.conn.vex.sent = st.conn.vex.sent ∨ st'.conn.vex.sent = 1 := by
  unfold lp_comm_st_idle at h
  split at h
  · split at h
    · simp only [Option.some.injEq] at h
      subst h
      simp
    · exact lp_comm_send_req_sent cfg st ctx st' h
  · simp_all

theorem lp_comm_rx_decode_sent (st : EngineSt) (pdu : pdu_data) (st' : EngineSt)
    (h : lp_comm_rx_decode st pdu = some st') :
    st'.conn.vex.sent = st.conn.vex.sent := by
  unfold lp_comm_rx_decode at h
  split at h
  · simp only [Option.some.injEq] at h
    subst h
    simp
  · exact absurd h (by simp)

theorem lp_comm_st_wait_rx_sent (st : EngineSt) (ctx : proc_ctx) (evt : Nat)
    (param : Option pdu_data) (st' : EngineSt)
    (h : lp_comm_st_wait_rx st ctx evt param = some st') :
    st'.conn.vex.sent = st.conn.vex.sent := by
  unfold lp_comm_st_wait_rx at h
  split at h
  · split at h
    · rename_i pdu
      rw [engine_bind_eq_some] at h
      obtain ⟨st1, h1, h2⟩ := h
      have e1 := lp_comm_rx_decode_sent st pdu st1 h1
      have e2 := lp_comm_complete_vex st1 ctx st' h2
      simp_all
    · exact absurd h (by simp)
  · simp_all

theorem lp_comm_execute_fsm_sent (cfg : Settings) (st : EngineSt) (ctx : proc_ctx)
    (evt : Nat) (param : Option pdu_data) (st' : EngineSt)
    (h : lp_comm_execute_fsm cfg st ctx evt param = some st') :
    st'.conn.vex.sent = st.conn.vex.sent ∨ st'.conn.vex.sent = 1 := by
  unfold lp_comm_execute_fsm at h
  split at h
  · exact lp_comm_st_idle_sent cfg st ctx evt st' h
  · split at h
    · unfold lp_comm_st_wait_tx at h
      simp_all
    · split at h
      · exact Or.inl (lp_comm_st_wait_rx_sent st ctx evt param st' h)
      · split at h
        · unfold lp_comm_st_wait_ntf at h
          simp_all
        · exact absurd h (by simp)

theorem lr_act_run_sent (cfg : Settings) (st st' : EngineSt)
    (h : lr_act_run cfg st = some st') :
    st'.conn.vex.sent = st.conn.vex.sent ∨ st'.conn.vex.sent = 1 := by
  unfold lr_act_run at h
  split at h
  · exact absurd h (by simp)
  · split at h
    · exact lp_comm_execute_fsm_sent _ _ _ _ _ _ h
    · exact absurd h (by simp)

theorem lr_execute_fsm_sent (cfg : Settings) (st : EngineSt) (evt : Nat) (st' : EngineSt)
    (h : lr_execute_fsm cfg st evt = some st') :
    st'.conn.vex.sent = st.conn.vex.sent ∨ st'.conn.vex.sent = 1 := by
  unfold lr_execute_fsm at h
  split at h
  · unfold lr_st_disconnect at h
    split at h
    · simp only [Option.some.injEq] at h
      subst h
      simp [lr_act_connect]
    · simp only [Option.some.injEq] at h
      subst h
      simp
  · split at h
    · unfold lr_st_idle at h
      split at h
      · split at h
        · rw [engine_bind_eq_some] at h
          obtain ⟨st1, h1, h2⟩ := h
          simp only [Option.some.injEq] at h2
          subst h2
          have := lr_act_run_sent cfg st st1 h1
          simpa using this
        · simp only [Option.some.injEq] at h
          subst h
          simp
      · split at h
        · simp only [Option.some.injEq] at h
          subst h
          simp [lr_act_disconnect]
        · simp only [Option.some.injEq] at h
          subst h
          simp
    · split at h
      · unfold lr_st_active at h
        split at h
        · simp only [Option.some.injEq] at h
          subst h
          simp [lr_act_complete]
        · split at h
          · simp only [Option.some.injEq] at h
            subst h
            simp [lr_act_disconnect]
          · simp only [Option.some.injEq] at h
            subst h
            simp
      · exact absurd h (by simp)

theorem rp_comm_tx_vex (cfg : Settings) (st : EngineSt) (ctx : proc_ctx) (st' : EngineSt)
    (h : rp_comm_tx cfg st ctx = some st') : st'.conn.vex = st.conn.vex := by
  unfold rp_comm_tx at h
  split at h
  · exact absurd h (by simp)
  · split at h
    · simp only [Option.some.injEq] at h
      subst h
      simp
    · exact absurd h (by simp)

theorem rp_comm_send_rsp_sent (cfg : Settings) (st : EngineSt) (ctx : proc_ctx)
    (st' : EngineSt) (h : rp_comm_send_rsp cfg st ctx = some st') :
    st'.conn.vex.sent = st.conn.vex.sent ∨ st'.conn.vex.sent = 1 := by
  unfold rp_comm_send_rsp at h
  split at h
  · split at h
    · split at h
      · simp only [Option.some.injEq] at h
        subst h
        simp
      · rw [engine_bind_eq_some] at h
        obtain ⟨st1, h1, h2⟩ := h
        have e2 := rr_complete_vex _ _ h2
        right
        rw [e2]
        simp
    · exact absurd h (by simp)
  · exact absurd h (by simp)

theorem rp_comm_rx_decode_sent (st : EngineSt) (pdu : pdu_data) (st' : EngineSt)
    (h : rp_comm_rx_decode st pdu = some st') :
    st'.conn.vex.sent = st.conn.vex.sent := by
  unfold rp_comm_rx_decode at h
  split at h
  · simp only [Option.some.injEq] at h
    subst h
    simp
  · exact absurd h (by simp)

theorem rp_comm_st_wait_rx_sent (cfg : Settings) (st : EngineSt) (ctx : proc_ctx)
    (evt : Nat) (param : Option pdu_data) (st' : EngineSt)
    (h : rp_comm_st_wait_rx cfg st ctx evt param = some st') :
    st'.conn.vex.sent = st.conn.vex.sent ∨ st'.conn.vex.sent = 1 := by
  unfold rp_comm_st_wait_rx at h
  split at h
  · split at h
    · rename_i pdu
      rw [engine_bind_eq_some] at h
      obtain ⟨st1, h1, h2⟩ := h
      have e1 := rp_comm_rx_decode_sent st pdu st1 h1
      split at h2
      · simp only [Option.some.injEq] at h2
        subst h2
        simp [e1]
      · have := rp_comm_send_rsp_sent cfg st1 ctx st' h2
        rw [e1] at this
        exact this
    · exact absurd h (by simp)
  · simp_all

theorem rp_comm_execute_fsm_sent (cfg : Settings) (st : EngineSt) (ctx : proc_ctx)
    (evt : Nat) (param : Option pdu_data) (st' : EngineSt)
    (h : rp_comm_execute_fsm cfg st ctx evt param = some st') :
    st'.conn.vex.sent = st.conn.vex.sent ∨ st'.conn.vex.sent = 1 := by
  unfold rp_comm_execute_fsm at h
  split at h
  · unfold rp_comm_st_idle at h
    split at h
    · simp only [Option.some.injEq] at h
      subst h
      simp
    · simp only [Option.some.injEq] at h
      subst h
      simp
  · split at h
    · exact rp_comm_st_wait_rx_sent cfg st ctx evt param st' h
    · split at h
      · unfold rp_comm_st_wait_tx at h
        simp_all
      · split at h
        · unfold rp_comm_st_wait_ntf at h
          simp_all
        · exact absurd h (by simp)

theorem rr_act_run_sent (cfg : Settings) (st st' : EngineSt)
    (h : rr_act_run cfg st = some st') :
    st'.conn.vex.sent = st.conn.vex.sent ∨ st'.conn.vex.sent = 1 := by
  unfold rr_act_run at h
  split at h
  · exact absurd h (by simp)
  · split at h
    · exact rp_comm_execute_fsm_sent _ _ _ _ _ _ h
    · exact absurd h (by simp)

theorem rr_execute_fsm_sent (cfg : Settings) (st : EngineSt) (evt : Nat) (st' : EngineSt)
    (h : rr_execute_fsm cfg st evt = some st') :
    st'.conn.vex.sent = st.conn.vex.sent ∨ st'.conn.vex.sent = 1 := by
  unfold rr_execute_fsm at h
  split at h
  · unfold rr_st_disconnect at h
    split at h
    · simp only [Option.some.injEq] at h
      subst h
      simp [rr_act_connect]
    · simp only [Option.some.injEq] at h
      subst h
      simp
  · split at h
    · unfold rr_st_idle at h
      split at h
      · split at h
        · rw [engine_bind_eq_some] at h
          obtain ⟨st1, h1, h2⟩ := h
          simp only [Option.some.injEq] at h2
          subst h2
          have := rr_act_run_sent cfg st st1 h1
          simpa using this
        · simp only [Option.some.injEq] at h
          subst h
          simp
      · split at h
        · simp only [Option.some.injEq] at h
          subst h
          simp [rr_act_disconnect]
        · simp only [Option.some.injEq] at h
          subst h
          simp
    · split at h
      · unfold rr_st_active at h
        split at h
        · simp only [Option.some.injEq] at h
          subst h
          simp [rr_act_complete]
        · split at h
          · simp only [Option.some.injEq] at h
            subst h
            simp [rr_act_disconnect]
          · simp only [Option.some.injEq] at h
            subst h
            simp
      · exact absurd h (by simp)

theorem rr_new_sent (cfg : Settings) (st : EngineSt) (pdu : pdu_data) (st' : EngineSt)
    (h : rr_new cfg st pdu = some st') :
    st'.conn.vex.sent = st.conn.vex.sent ∨ st'.conn.vex.sent = 1 := by
  unfold rr_new at h
  split at h
  · rcases hcp : create_procedure st PROC_VERSION_EXCHANGE with ⟨octx, stc⟩
    rw [hcp] at h
    have hvs : stc.conn.vex.sent = st.conn.vex.sent := by
      have hv := create_procedure_vex st PROC_VERSION_EXCHANGE
      rw [hcp] at hv
      exact congrArg vex_state.sent hv
    cases octx with
    | none =>
      simp only [Option.some.injEq] at h
      subst h
      exact Or.inl hvs
    | some ctx =>
      simp only at h
      rw [engine_bind_eq_some] at h
      obtain ⟨st1, h1, h2⟩ := h
      have e1 := rr_execute_fsm_sent cfg _ _ st1 h1
      simp only [vex_rr_enqueue] at e1
      split at h2
      · have e2 := rp_comm_execute_fsm_sent _ _ _ _ _ _ h2
        rcases e2 with e2 | e2
        · rcases e1 with e1 | e1
          · exact Or.inl (by rw [e2, e1, hvs])
          · exact Or.inr (by rw [e2, e1])
        · exact Or.inr e2
      · exact absurd h2 (by simp)
  · exact absurd h (by simp)

theorem ull_cp_run_sent (cfg : Settings) (st st' : EngineSt)
    (h : ull_cp_run cfg st = some st') :
    st'.conn.vex.sent = st.conn.vex.sent ∨ st'.conn.vex.sent = 1 := by
  unfold ull_cp_run rr_run lr_run at h
  rw [engine_bind_eq_some] at h
  obtain ⟨st1, h1, h2⟩ := h
  have e1 := rr_execute_fsm_sent cfg st _ st1 h1
  have e2 := lr_execute_fsm_sent cfg st1 _ st' h2
  rcases e1 with e1 | e1 <;> rcases e2 with e2 | e2 <;> simp_all

theorem ull_cp_connect_sent (cfg : Settings) (st st' : EngineSt)
    (h : ull_cp_connect cfg st = some st') :
    st'.conn.vex.sent = st.conn.vex.sent ∨ st'.conn.vex.sent = 1 := by
  unfold ull_cp_connect rr_connect lr_connect at h
  rw [engine_bind_eq_some] at h
  obtain ⟨st1, h1, h2⟩ := h
  have e1 := rr_execute_fsm_sent cfg st _ st1 h1
  have e2 := lr_execute_fsm_sent cfg st1 _ st' h2
  rcases e1 with e1 | e1 <;> rcases e2 with e2 | e2 <;> simp_all

theorem ull_cp_disconnect_sent (cfg : Settings) (st st' : EngineSt)
    (h : ull_cp_disconnect cfg st = some st') :
    st'.conn.vex.sent = st.conn.vex.sent ∨ st'.conn.vex.sent = 1 := by
  unfold ull_cp_disconnect rr_disconnect lr_disconnect at h
  rw [engine_bind_eq_some] at h
  obtain ⟨st1, h1, h2⟩ := h
  have e1 := rr_execute_fsm_sent cfg st _ st1 h1
  have e2 := lr_execute_fsm_sent cfg st1 _ st' h2
  rcases e1 with e1 | e1 <;> rcases e2 with e2 | e2 <;> simp_all

theorem ull_cp_version_exchange_sent (st : EngineSt) :
    (ull_cp_version_exchange st).2.conn.vex.sent = st.conn.vex.sent := by
  unfold ull_cp_version_exchange
  rcases hcp : create_procedure st PROC_VERSION_EXCHANGE with ⟨octx, stc⟩
  have hvs : stc.conn.vex.sent = st.conn.vex.sent := by
    have hv := create_procedure_vex st PROC_VERSION_EXCHANGE
    rw [hcp] at hv
    exact congrArg vex_state.sent hv
  cases octx with
  | none => exact hvs
  | some ctx =>
    simp only
    rw [show (lr_enqueue stc ctx).conn.vex = stc.conn.vex from rfl]
    exact hvs

theorem ull_cp_rx_sent (cfg : Settings) (st : EngineSt) (pdu : pdu_data) (st' : EngineSt)
    (h : ull_cp_rx cfg st pdu = some st') :
    st'.conn.vex.sent = st.conn.vex.sent ∨ st'.conn.vex.sent = 1 := by
  unfold ull_cp_rx at h
  split at h
  · split at h
    · exact lp_comm_execute_fsm_sent _ _ _ _ _ _ h
    · split at h
      · split at h
        · exact rp_comm_execute_fsm_sent _ _ _ _ _ _ h
        · exact rr_new_sent _ _ _ _ h
      · exact rr_new_sent _ _ _ _ h
  · split at h
    · split at h
      · exact rp_comm_execute_fsm_sent _ _ _ _ _ _ h
      · exact rr_new_sent _ _ _ _ h
    · exact rr_new_sent _ _ _ _ h

theorem step_sent (cfg : Settings) (st : EngineSt) (op : Op) (st' : EngineSt)
    (hop : op ≠ Op.connInit) (h : step cfg st op = some st') :
    st'.conn.vex.sent = st.conn.vex.sent ∨ st'.conn.vex.sent = 1 := by
  cases op with
  | connInit => exact absurd rfl hop
  | connect => exact ull_cp_connect_sent cfg st st' h
  | disconnect => exact ull_cp_disconnect_sent cfg st st' h
  | run => exact ull_cp_run_sent cfg st st' h
  | versionExchange =>
    simp only [step, Option.some.injEq] at h
    subst h
    exact Or.inl (ull_cp_version_exchange_sent st)
  | rx pdu => exact ull_cp_rx_sent cfg st pdu st' h

theorem steps_sent (cfg : Settings) (ops : List Op) (st st' : EngineSt)
    (hops : ∀ op ∈ ops, op ≠ Op.connInit) (h : steps cfg st ops = some st')
    (hle : st.conn.vex.sent ≤ 1) :
    st.conn.vex.sent ≤ st'.conn.vex.sent ∧ st'.conn.vex.sent ≤ 1 := by
  induction ops generalizing st with
  | nil =>
    simp only [steps, Option.some.injEq] at h
    subst h
    exact ⟨le_refl _, hle⟩
  | cons op ops ih =>
    simp only [steps] at h
    rw [engine_bind_eq_some] at h
    obtain ⟨st1, h1, h2⟩ := h
    have hs := step_sent cfg st op st1 (hops op (by simp)) h1
    have hst1 : st.conn.vex.sent ≤ st1.conn.vex.sent ∧ st1.conn.vex.sent ≤ 1 := by
      rcases hs with e | e
      · rw [e]
        exact ⟨le_refl _, e ▸ hle⟩
      · rw [e]
        exact ⟨hle, le_refl 1⟩
    have hrest := ih st1 (fun op2 hm => hops op2 (by simp [hm])) h2 hst1.2
    exact ⟨le_trans hst1.1 hrest.1, hrest.2⟩

/-! ## The claims -/

/-- C1: counter-run.  When a local version exchange completes immediately
during `run` (because `vex.sent` is already true), one host notification
with the cached peer values is enqueued and no PDU is transmitted, but the
COMPLETE event reaches the local lane while it is still in IDLE (the lane
is marked ACTIVE only after the run action returns), so it is ignored: the
head context is not dequeued and the lane ends in ACTIVE, not IDLE, in
contradiction with the claim. -/
theorem C1_immediate_completion_leaves_lane_active :
    (steps cfg2 (ull_cp_init cfg2)
      [Op.connInit, Op.connect, Op.rx peerPdu, Op.versionExchange, Op.run]).map
      (fun s => (s.conn.loc.state, s.conn.loc.pend_proc_list.length,
                 s.txQ.length, s.llRxQ)) =
    some (LR_STATE_ACTIVE, 1, 1, [peerNtfPdu]) := by
  decide

/-- C2: counter-run.  After two local submissions, `ull_cp_disconnect`
parks both lanes in DISCONNECT but dequeues only the head of the local
queue (one `lr_dequeue`) and releases nothing: one context remains queued
and the pool still records both acquisitions, in contradiction with the
claim. -/
theorem C2_disconnect_does_not_drain :
    (steps cfg2 (ull_cp_init cfg2)
      [Op.connInit, Op.connect, Op.versionExchange, Op.versionExchange, Op.disconnect]).map
      (fun s => (s.conn.loc.state, s.conn.rem.state,
                 s.conn.loc.pend_proc_list.length, s.conn.rem.pend_proc_list.length,
                 s.memCtxFree, s.ctxAcquired)) =
    some (LR_STATE_DISCONNECT, RR_STATE_DISCONNECT, 1, 0, 0, 2) := by
  decide

/-- C3: counter-run.  After a completed local version exchange both lane
queues are empty, yet the context acquired for it was never returned to
the pool (`proc_ctx_release` is never called): the pool meter reads 1
acquired block against 0 queued contexts, and a further submission fails
with CMD_DISALLOWED although no procedure is in flight, in contradiction
with the claim. -/
theorem C3_completed_context_never_released :
    (steps cfg1 (ull_cp_init cfg1)
      [Op.connInit, Op.connect, Op.versionExchange, Op.run, Op.rx peerPdu]).map
      (fun s => (s.conn.loc.pend_proc_list.length, s.conn.rem.pend_proc_list.length,
                 s.ctxAcquired, s.memCtxFree, (ull_cp_version_exchange s).1)) =
    some (0, 0, 1, 0, BT_HCI_ERR_CMD_DISALLOWED) := by
  decide

/-- C6: `vex.sent` is monotone non-decreasing across any sequence of
engine operations that does not contain `conn_init`, and `conn_init`
resets it to 0. -/
theorem C6_vex_sent_monotone (cfg : Settings) (st : EngineSt) :
    (∀ ops st', (∀ op ∈ ops, op ≠ Op.connInit) → steps cfg st ops = some st' →
      st.conn.vex.sent ≤ 1 →
      st.conn.vex.sent ≤ st'.conn.vex.sent ∧ st'.conn.vex.sent ≤ 1)
    ∧ (ull_cp_conn_init st).conn.vex.sent = 0 := by
  exact ⟨fun ops st' hops h hle => steps_sent cfg ops st st' hops h hle, rfl⟩

/-- Witness for C6 at a concrete connection with `vex.sent = 1` and a
concrete run step. -/
theorem C6_vex_sent_monotone_witness :
    (stAfterRemoteVex.conn.vex.sent ≤ stAfterRemoteVex.conn.vex.sent
      ∧ stAfterRemoteVex.conn.vex.sent ≤ 1)
    ∧ (ull_cp_conn_init stAfterRemoteVex).conn.vex.sent = 0 :=
  ⟨(C6_vex_sent_monotone cfg2 stAfterRemoteVex).1 [Op.run] stAfterRemoteVex
      (by decide) (by decide) (by decide),
   (C6_vex_sent_monotone cfg2 stAfterRemoteVex).2⟩

/-- C4: the RX dispatcher routes a matching local head as RESPONSE to the
local procedure FSM and nothing else, else a matching remote head as
REQUEST to the remote procedure FSM, and otherwise (for the mapped opcode
VERSION_IND, pool permitting) allocates a VersionExchange context,
appends it to the remote lane, fires RUN on the remote lane and then
delivers the PDU as REQUEST to the head. -/
theorem C4_rx_dispatch (cfg : Settings) (st : EngineSt) (pdu : pdu_data) :
    (∀ ctx, lr_peek st = some ctx → ctx.opcode = pdu.opcode →
      ull_cp_rx cfg st pdu = lr_rx cfg st ctx pdu)
    ∧ (∀ ctx2, (∀ ctx, lr_peek st = some ctx → ctx.opcode ≠ pdu.opcode) →
        rr_peek st = some ctx2 → ctx2.opcode = pdu.opcode →
        ull_cp_rx cfg st pdu = rr_rx cfg st ctx2 pdu)
    ∧ ((∀ ctx, lr_peek st = some ctx → ctx.opcode ≠ pdu.opcode) →
       (∀ ctx, rr_peek st = some ctx → ctx.opcode ≠ pdu.opcode) →
       pdu.opcode = PDU_DATA_LLCTRL_TYPE_VERSION_IND →
       st.memCtxFree ≠ 0 →
       ull_cp_rx cfg st pdu =
         Bind.bind (rr_run cfg
           { st with
             memCtxFree := st.memCtxFree - 1
             ctxAcquired := st.ctxAcquired + 1
             conn := { st.conn with rem := { st.conn.rem with
               pend_proc_list := st.conn.rem.pend_proc_list ++ [ctxFreshVex] } } })
           (fun st2 =>
             match rr_peek st2 with
             | some c => rr_rx cfg st2 c pdu
             | none => none)) := by
  have hnew : pdu.opcode = PDU_DATA_LLCTRL_TYPE_VERSION_IND → st.memCtxFree ≠ 0 →
      rr_new cfg st pdu =
        Bind.bind (rr_run cfg
          { st with
            memCtxFree := st.memCtxFree - 1
            ctxAcquired := st.ctxAcquired + 1
            conn := { st.conn with rem := { st.conn.rem with
              pend_proc_list := st.conn.rem.pend_proc_list ++ [ctxFreshVex] } } })
          (fun st2 =>
            match rr_peek st2 with
            | some c => rr_rx cfg st2 c pdu
            | none => none) := by
    intro hop hfree
    unfold rr_new create_procedure proc_ctx_acquire rr_enqueue
    rw [if_pos hop, if_neg hfree]
    rfl
  refine ⟨?_, ?_, ?_⟩
  · intro ctx hpk hop
    unfold ull_cp_rx
    simp only [hpk]
    rw [if_pos hop]
  · intro ctx2 hl hpk2 hop2
    unfold ull_cp_rx
    cases hpk : lr_peek st with
    | none =>
      simp only [hpk, hpk2]
      rw [if_pos hop2]
    | some ctx =>
      simp only [hpk, hpk2]
      rw [if_neg (hl ctx hpk), if_pos hop2]
  · intro hl hr hop hfree
    unfold ull_cp_rx
    cases hpk : lr_peek st with
    | none =>
      cases hpk2 : rr_peek st with
      | none =>
        simp only [hpk, hpk2]
        exact hnew hop hfree
      | some c2 =>
        simp only [hpk, hpk2]
        rw [if_neg (hr c2 hpk2)]
        exact hnew hop hfree
    | some ctx =>
      cases hpk2 : rr_peek st with
      | none =>
        simp only [hpk, hpk2]
        rw [if_neg (hl ctx hpk)]
        exact hnew hop hfree
      | some c2 =>
        simp only [hpk, hpk2]
        rw [if_neg (hl ctx hpk), if_neg (hr c2 hpk2)]
        exact hnew hop hfree

/-- Witness for C4 at concrete states exercising all three routes. -/
theorem C4_rx_dispatch_witness :
    (ull_cp_rx cfg1 stLocalWaitRx peerPdu =
      lr_rx cfg1 stLocalWaitRx
        { proc := PROC_VERSION_EXCHANGE, state := LP_COMMON_STATE_WAIT_RX,
          opcode := PDU_DATA_LLCTRL_TYPE_VERSION_IND, collision := 0, pause := 0 } peerPdu)
    ∧ (ull_cp_rx cfg1 stRemoteWaitRx peerPdu =
      rr_rx cfg1 stRemoteWaitRx
        { proc := PROC_VERSION_EXCHANGE, state := RP_COMMON_STATE_WAIT_RX,
          opcode := PDU_DATA_LLCTRL_TYPE_VERSION_IND, collision := 0, pause := 0 } peerPdu)
    ∧ (ull_cp_rx cfg1 stIdle1 peerPdu =
      Bind.bind (rr_run cfg1
        { stIdle1 with
          memCtxFree := stIdle1.memCtxFree - 1
          ctxAcquired := stIdle1.ctxAcquired + 1
          conn := { stIdle1.conn with rem := { stIdle1.conn.rem with
            pend_proc_list := stIdle1.conn.rem.pend_proc_list ++ [ctxFreshVex] } } })
        (fun st2 =>
          match rr_peek st2 with
          | some c => rr_rx cfg1 st2 c peerPdu
          | none => none)) :=
  ⟨(C4_rx_dispatch cfg1 stLocalWaitRx peerPdu).1 _ rfl rfl,
   (C4_rx_dispatch cfg1 stRemoteWaitRx peerPdu).2.1 _
     (fun _ h => Option.noConfusion h) rfl rfl,
   (C4_rx_dispatch cfg1 stIdle1 peerPdu).2.2
     (fun _ h => Option.noConfusion h) (fun _ h => Option.noConfusion h) rfl (by decide)⟩

/-- C5: a local version-exchange context in IDLE receiving RUN with
`vex.sent = 0` and pause clear parks in WAIT_TX with nothing else changed
when no transmit buffer is free; with a buffer free it transmits exactly
one VERSION_IND, sets `vex.sent`, sets the awaited opcode and moves to
WAIT_RX. -/
theorem C5_local_idle_run_send (cfg : Settings) (st : EngineSt) (ctx : proc_ctx)
    (hpk : lr_peek st = some ctx)
    (hproc : ctx.proc = PROC_VERSION_EXCHANGE)
    (hstate : ctx.state = LP_COMMON_STATE_IDLE)
    (hpause : ctx.pause = 0)
    (hsent : st.conn.vex.sent = 0) :
    (st.memTxFree = 0 →
      lp_comm_execute_fsm cfg st ctx LP_COMMON_EVT_RUN none =
        some { st with conn := { st.conn with loc := { st.conn.loc with
          pend_proc_list := { ctx with state := LP_COMMON_STATE_WAIT_TX } ::
            st.conn.loc.pend_proc_list.tail } } })
    ∧ (st.memTxFree ≠ 0 →
      lp_comm_execute_fsm cfg st ctx LP_COMMON_EVT_RUN none =
        some { st with
          memTxFree := st.memTxFree - 1
          conn := { st.conn with
            loc := { st.conn.loc with
              pend_proc_list := { ctx with
                state := LP_COMMON_STATE_WAIT_RX,
                opcode := PDU_DATA_LLCTRL_TYPE_VERSION_IND } ::
                  st.conn.loc.pend_proc_list.tail }
            vex := { st.conn.vex with sent := 1 } }
          txQ := st.txQ ++ [pdu_encode_version_ind cfg] }) := by
  obtain ⟨m1, m2, m3, acq, ⟨⟨lst, pend⟩, rem0, vx⟩, txq, rxq⟩ := st
  simp only [lr_peek] at hpk
  cases pend with
  | nil => cases hpk
  | cons a t =>
    simp only [List.head?_cons, Option.some.injEq] at hpk
    subst hpk
    have hnp : ¬a.pause ≠ 0 := by simp [hpause]
    constructor
    · intro h0
      unfold lp_comm_execute_fsm
      rw [hstate, if_pos rfl]
      unfold lp_comm_st_idle
      rw [if_pos rfl, if_neg hnp]
      unfold lp_comm_send_req
      rw [if_pos hproc, if_pos hsent,
          if_pos (Or.inl (by simp [tx_alloc_peek, show m2 = 0 from h0]))]
      rfl
    · intro h1
      unfold lp_comm_execute_fsm
      rw [hstate, if_pos rfl]
      unfold lp_comm_st_idle
      rw [if_pos rfl, if_neg hnp]
      unfold lp_comm_send_req
      rw [if_pos hproc, if_pos hsent,
          if_neg (by simp [tx_alloc_peek, hpause, show m2 ≠ 0 from h1])]
      unfold lp_comm_tx
      rw [if_neg h1, if_pos hproc]
      rfl

/-- Witness for C5: both the backpressure branch and the transmit branch
at a freshly submitted local context. -/
theorem C5_local_idle_run_send_witness :
    (lp_comm_execute_fsm cfg1 stLocalSubmittedNoTx ctxFreshVex LP_COMMON_EVT_RUN none =
      some { stLocalSubmittedNoTx with conn := { stLocalSubmittedNoTx.conn with
        loc := { stLocalSubmittedNoTx.conn.loc with pend_proc_list :=
          { ctxFreshVex with state := LP_COMMON_STATE_WAIT_TX } ::
            stLocalSubmittedNoTx.conn.loc.pend_proc_list.tail } } })
    ∧ (lp_comm_execute_fsm cfg1 stLocalSubmitted ctxFreshVex LP_COMMON_EVT_RUN none =
      some { stLocalSubmitted with
        memTxFree := stLocalSubmitted.memTxFree - 1
        conn := { stLocalSubmitted.conn with
          loc := { stLocalSubmitted.conn.loc with pend_proc_list :=
            { ctxFreshVex with
              state := LP_COMMON_STATE_WAIT_RX
              opcode := PDU_DATA_LLCTRL_TYPE_VERSION_IND } ::
              stLocalSubmitted.conn.loc.pend_proc_list.tail }
          vex := { stLocalSubmitted.conn.vex with sent := 1 } }
        txQ := stLocalSubmitted.txQ ++ [pdu_encode_version_ind cfg1] }) :=
  ⟨(C5_local_idle_run_send cfg1 stLocalSubmittedNoTx ctxFreshVex rfl rfl rfl rfl rfl).1 rfl,
   (C5_local_idle_run_send cfg1 stLocalSubmitted ctxFreshVex rfl rfl rfl rfl rfl).2
     (by decide)⟩

/-- C7: encoding a VERSION_IND from identity values and decoding it back
recovers the values exactly (with `valid` set), and the `u16` fields are
laid out little-endian on the wire. -/
theorem C7_version_ind_roundtrip (cfg : Settings) (conn : ull_cp_conn)
    (h1 : cfg.ll_version_number < 256) (h2 : cfg.company_id < 65536)
    (h3 : cfg.subversion_number < 65536) :
    (pdu_decode_version_ind conn (pdu_encode_version_ind cfg)).vex.valid = 1
    ∧ (pdu_decode_version_ind conn (pdu_encode_version_ind cfg)).vex.cached.version_number
        = cfg.ll_version_number
    ∧ (pdu_decode_version_ind conn (pdu_encode_version_ind cfg)).vex.cached.company_id
        = cfg.company_id
    ∧ (pdu_decode_version_ind conn (pdu_encode_version_ind cfg)).vex.cached.sub_version_number
        = cfg.subversion_number
    ∧ (pdu_encode_version_ind cfg).company_id_lo = cfg.company_id % 256
    ∧ (pdu_encode_version_ind cfg).company_id_hi = cfg.company_id / 256
    ∧ (pdu_encode_version_ind cfg).sub_version_lo = cfg.subversion_number % 256
    ∧ (pdu_encode_version_ind cfg).sub_version_hi = cfg.subversion_number / 256 := by
  refine ⟨rfl, ?_, ?_, ?_, rfl, ?_, rfl, ?_⟩ <;>
    simp only [pdu_encode_version_ind, pdu_decode_version_ind] <;>
    omega

/-- Witness for C7 at the concrete identity `{8, 0x05F1, 0x2222}`. -/
theorem C7_version_ind_roundtrip_witness :
    (pdu_decode_version_ind stIdle1.conn (pdu_encode_version_ind cfg1)).vex.cached.company_id
      = cfg1.company_id :=
  (C7_version_ind_roundtrip cfg1 stIdle1.conn (by decide) (by decide) (by decide)).2.2.1

/-- C8: `ull_cp_version_exchange` fails with CMD_DISALLOWED and changes
nothing exactly when the context pool is exhausted; otherwise it acquires
a VersionExchange context, appends it to the local lane queue and returns
SUCCESS. -/
theorem C8_submit_version_exchange (st : EngineSt) :
    (st.memCtxFree = 0 →
      ull_cp_version_exchange st = (BT_HCI_ERR_CMD_DISALLOWED, st))
    ∧ (st.memCtxFree ≠ 0 →
      ull_cp_version_exchange st =
        (BT_HCI_ERR_SUCCESS,
         { st with
           memCtxFree := st.memCtxFree - 1
           ctxAcquired := st.ctxAcquired + 1
           conn := { st.conn with loc := { st.conn.loc with
             pend_proc_list := st.conn.loc.pend_proc_list ++ [ctxFreshVex] } } })) := by
  constructor
  · intro h0
    unfold ull_cp_version_exchange create_procedure proc_ctx_acquire
    rw [if_pos h0]
  · intro h1
    unfold ull_cp_version_exchange create_procedure proc_ctx_acquire lr_enqueue
    rw [if_neg h1]
    rfl

/-- Witness for C8: both the exhausted and the successful branch. -/
theorem C8_submit_version_exchange_witness :
    ull_cp_version_exchange stIdleNoCtx = (BT_HCI_ERR_CMD_DISALLOWED, stIdleNoCtx)
    ∧ ull_cp_version_exchange stIdle1 =
      (BT_HCI_ERR_SUCCESS,
       { stIdle1 with
         memCtxFree := stIdle1.memCtxFree - 1
         ctxAcquired := stIdle1.ctxAcquired + 1
         conn := { stIdle1.conn with loc := { stIdle1.conn.loc with
           pend_proc_list := stIdle1.conn.loc.pend_proc_list ++ [ctxFreshVex] } } }) :=
  ⟨(C8_submit_version_exchange stIdleNoCtx).1 rfl,
   (C8_submit_version_exchange stIdle1).2 (by decide)⟩

/-- C9: the WAIT_TX and WAIT_NTF handlers of both procedure FSMs are
no-ops: any event delivered to a context parked there leaves the whole
engine state (context included) unchanged. -/
theorem C9_wait_state_handlers_noop (cfg : Settings) (st : EngineSt) (ctx : proc_ctx)
    (evt : Nat) (param : Option pdu_data) :
    ((ctx.state = LP_COMMON_STATE_WAIT_TX ∨ ctx.state = LP_COMMON_STATE_WAIT_NTF) →
      lp_comm_execute_fsm cfg st ctx evt param = some st)
    ∧ ((ctx.state = RP_COMMON_STATE_WAIT_TX ∨ ctx.state = RP_COMMON_STATE_WAIT_NTF) →
      rp_comm_execute_fsm cfg st ctx evt param = some st) := by
  constructor
  · rintro (h | h) <;>
      simp [lp_comm_execute_fsm, lp_comm_st_wait_tx, lp_comm_st_wait_ntf, h,
            LP_COMMON_STATE_IDLE, LP_COMMON_STATE_WAIT_TX, LP_COMMON_STATE_WAIT_RX,
            LP_COMMON_STATE_WAIT_NTF]
  · rintro (h | h) <;>
      simp [rp_comm_execute_fsm, rp_comm_st_wait_tx, rp_comm_st_wait_ntf, h,
            RP_COMMON_STATE_IDLE, RP_COMMON_STATE_WAIT_RX, RP_COMMON_STATE_WAIT_TX,
            RP_COMMON_STATE_WAIT_NTF]

/-- Witness for C9: a parked local context ignores RUN; a parked remote
context ignores REQUEST. -/
theorem C9_wait_state_handlers_noop_witness :
    lp_comm_execute_fsm cfg1 stIdle1
      { proc := PROC_VERSION_EXCHANGE, state := LP_COMMON_STATE_WAIT_TX,
        opcode := 0, collision := 0, pause := 0 } LP_COMMON_EVT_RUN none = some stIdle1
    ∧ rp_comm_execute_fsm cfg1 stIdle1
      { proc := PROC_VERSION_EXCHANGE, state := RP_COMMON_STATE_WAIT_NTF,
        opcode := 0, collision := 0, pause := 0 } RP_COMMON_EVT_REQUEST (some peerPdu)
      = some stIdle1 :=
  ⟨(C9_wait_state_handlers_noop cfg1 stIdle1 _ LP_COMMON_EVT_RUN none).1 (Or.inl rfl),
   (C9_wait_state_handlers_noop cfg1 stIdle1 _ RP_COMMON_EVT_REQUEST (some peerPdu)).2
     (Or.inr rfl)⟩

/-- C10: a VERSION_IND that matches neither lane's awaited opcode while
the context pool is exhausted is silently dropped: `ull_cp_rx` returns
with the engine state (lanes, queues, cached record, pools) unchanged. -/
theorem C10_rx_exhausted_pool_drops_pdu (cfg : Settings) (st : EngineSt) (pdu : pdu_data)
    (hpool : st.memCtxFree = 0)
    (hop : pdu.opcode = PDU_DATA_LLCTRL_TYPE_VERSION_IND)
    (hl : ∀ ctx, lr_peek st = some ctx → ctx.opcode ≠ pdu.opcode)
    (hr : ∀ ctx, rr_peek st = some ctx → ctx.opcode ≠ pdu.opcode) :
    ull_cp_rx cfg st pdu = some st := by
  have hnew : rr_new cfg st pdu = some st := by
    unfold rr_new create_procedure proc_ctx_acquire
    rw [if_pos hop, if_pos hpool]
  unfold ull_cp_rx
  cases hpk : lr_peek st with
  | none =>
    cases hpk2 : rr_peek st with
    | none =>
      simp only [hpk, hpk2]
      exact hnew
    | some c2 =>
      simp only [hpk, hpk2]
      rw [if_neg (hr c2 hpk2)]
      exact hnew
  | some ctx =>
    cases hpk2 : rr_peek st with
    | none =>
      simp only [hpk, hpk2]
      rw [if_neg (hl ctx hpk)]
      exact hnew
    | some c2 =>
      simp only [hpk, hpk2]
      rw [if_neg (hl ctx hpk), if_neg (hr c2 hpk2)]
      exact hnew

/-- Witness for C10 at a concrete exhausted-pool state. -/
theorem C10_rx_exhausted_pool_witness :
    ull_cp_rx cfg1 stIdleNoCtx peerPdu = some stIdleNoCtx :=
  C10_rx_exhausted_pool_drops_pdu cfg1 stIdleNoCtx peerPdu rfl rfl
    (fun _ h => Option.noConfusion h) (fun _ h => Option.noConfusion h)

end UllLlcp
